import Mathlib

set_option linter.unusedVariables false

/-!
Verification development for the kinetype particle system: the text sampler's
subsampling strategy, the particle spring integrator, the particle pool
(reshape and level-of-detail resizing) and the FPS-driven LOD controller.
Numbers of the runtime are modelled as exact arithmetic (`Nat`/`Int`/`Rat` for
counts, indices and timestamps, `Real` for kinematics).
-/

namespace Kinetype

/-- Pixel-space anchor point produced by the text rasterizer
(`SamplePoint` of `TextSampler.ts`). -/
structure SamplePoint where
  homeX : Int
  homeY : Int
deriving DecidableEq, Inhabited

/-- Classification of an opaque pixel: `edge` when at least one 4-connected
neighbour is not opaque, `interior` otherwise. -/
inductive PixelClass
  | edge
  | interior
deriving DecidableEq, Inhabited

/-- Particle budget threshold of `TextSampler`: below it the sampler biases the
budget toward letter-edge pixels, at or above it the combined edges-first list
is strided uniformly. -/
def EDGE_BIAS_THRESHOLD : Nat := 1501

/-- Exact value of `Math.ceil(maxParticles * 0.7)`. -/
def ceilSeventyPercent (n : Nat) : Nat := (7 * n + 9) / 10

/-- Even-stride subsampler (the `subsampleArr` closure of `TextSampler.sample`):
a list short enough for the budget is returned unchanged, otherwise `count`
entries are taken at indices `⌊i·(length/count)⌋ = (i·length)/count`. -/
def subsampleArr [Inhabited α] (arr : List α) (count : Nat) : List α :=
  if arr.length ≤ count then arr
  else (List.range count).map (fun i => arr.getD (i * arr.length / count) default)

/-- Edge test of the pixel scan in `TextSampler.sample`: at least one
4-connected neighbour is unfilled. -/
def isEdgePixel (filled : Int → Int → Bool) (px py : Int) : Bool :=
  !filled (px - 1) py || !filled (px + 1) py || !filled px (py - 1) || !filled px (py + 1)

/-- Opacity predicate of `TextSampler.sample` (`isFilled`): inside the canvas
and alpha channel above 128. -/
def isFilledPx (W H : Nat) (alphaAt : Int → Int → Nat) (px py : Int) : Bool :=
  if px < 0 || py < 0 || (W : Int) ≤ px || (H : Int) ≤ py then false
  else decide (128 < alphaAt px py)

/-- Row-major pixel scan of `TextSampler.sample`, collecting opaque pixels into
an edge list and an interior list in scan order (the source then shuffles each
list before subsampling; the theorems below quantify over the shuffled lists). -/
def classifyPixels (W H : Nat) (filled : Int → Int → Bool) :
    List SamplePoint × List SamplePoint :=
  (List.range H).foldl
    (fun acc py =>
      (List.range W).foldl
        (fun acc2 px =>
          if filled (px : Int) (py : Int) then
            if isEdgePixel filled (px : Int) (py : Int) then
              (acc2.1 ++ [⟨(px : Int), (py : Int)⟩], acc2.2)
            else
              (acc2.1, acc2.2 ++ [⟨(px : Int), (py : Int)⟩])
          else acc2)
        acc)
    ([], [])

/-- Subsampling core of `TextSampler.sample`, translated from the source: the
classified (and already shuffled) edge and interior pixel lists are combined
edges-first; if they fit the budget they are returned whole; otherwise, below
`EDGE_BIAS_THRESHOLD` the budget is split `min(edges, ceil(0.7·budget))` for
edges and the remainder for interior pixels, each class strided evenly, while
at or above the threshold the combined list is strided uniformly. Each
returned point carries the class it came from. -/
def sampleFromClassified (edgePoints interiorPoints : List SamplePoint)
    (maxParticles : Nat) : List (PixelClass × SamplePoint) :=
  if edgePoints.length + interiorPoints.length = 0 then []
  else
    let taggedEdges := edgePoints.map (fun p => (PixelClass.edge, p))
    let taggedInterior := interiorPoints.map (fun p => (PixelClass.interior, p))
    let ordered := taggedEdges ++ taggedInterior
    if ordered.length ≤ maxParticles then ordered
    else if maxParticles < EDGE_BIAS_THRESHOLD then
      let edgeBudget := min edgePoints.length (ceilSeventyPercent maxParticles)
      let interiorBudget := maxParticles - edgeBudget
      subsampleArr taggedEdges edgeBudget ++ subsampleArr taggedInterior interiorBudget
    else
      subsampleArr ordered maxParticles

theorem subsampleArr_length [Inhabited α] (arr : List α) (count : Nat) :
    (subsampleArr arr count).length = min arr.length count := by
  unfold subsampleArr
  split
  · rename_i h
    exact (Nat.min_eq_left h).symm
  · rename_i h
    simp [Nat.min_eq_right (Nat.le_of_lt (Nat.lt_of_not_le h))]

theorem subsampleArr_mem [Inhabited α] {q : α} (arr : List α) (count : Nat)
    (hq : q ∈ subsampleArr arr count) : q ∈ arr := by
  unfold subsampleArr at hq
  split at hq
  · exact hq
  · rename_i h
    simp only [List.mem_map, List.mem_range] at hq
    obtain ⟨i, hi, rfl⟩ := hq
    have hcount : 0 < count := Nat.pos_of_ne_zero (by rintro rfl; exact Nat.not_lt_zero i hi)
    have hlen : 0 < arr.length := Nat.lt_of_le_of_lt (Nat.zero_le _) (Nat.lt_of_not_le h)
    have hidx : i * arr.length / count < arr.length := by
      rw [Nat.div_lt_iff_lt_mul hcount]
      calc i * arr.length < count * arr.length := (Nat.mul_lt_mul_right hlen).mpr hi
        _ = arr.length * count := Nat.mul_comm _ _
    rw [List.getD_eq_getElem?_getD, List.getElem?_eq_getElem hidx]
    exact List.getElem_mem _

theorem subsampleArr_all {P : α → Prop} [Inhabited α] (arr : List α) (count : Nat)
    (hd : P default) (h : ∀ a ∈ arr, P a) : ∀ a ∈ subsampleArr arr count, P a := by
  intro a ha
  unfold subsampleArr at ha
  split at ha
  · exact h a ha
  · simp only [List.mem_map, List.mem_range] at ha
    obtain ⟨i, _, rfl⟩ := ha
    rcases Nat.lt_or_ge (i * arr.length / count) arr.length with hidx | hidx
    · rw [List.getD_eq_getElem?_getD, List.getElem?_eq_getElem hidx]
      exact h _ (List.getElem_mem _)
    · rw [List.getD_eq_getElem?_getD, List.getElem?_eq_none (by omega)]
      exact hd

/-- Explicit classified input with eight edge pixels and no interior pixels;
with budget 5 the edge-biased branch hands `ceil(0.7·5) = 4` slots to edges and
one slot to the (empty) interior class, so only 4 points come back. -/
def cexEdgeList : List SamplePoint :=
  [⟨0, 0⟩, ⟨1, 0⟩, ⟨2, 0⟩, ⟨3, 0⟩, ⟨0, 1⟩, ⟨1, 1⟩, ⟨2, 1⟩, ⟨3, 1⟩]

/-- C1 counterexample: a sample call whose raw opaque pixel count (8) exceeds
the particle budget (5), with the budget below the edge-bias threshold, for
which the returned sequence has length 4, not the budget 5: when interior
pixels are scarce the interior share of the budget goes unfilled. -/
theorem C1_counterexample :
    5 < cexEdgeList.length + ([] : List SamplePoint).length ∧
    5 < EDGE_BIAS_THRESHOLD ∧
    (sampleFromClassified cexEdgeList [] 5).length ≠ 5 := by decide

/-- C1 (amended): for a sample call whose raw opaque pixel count exceeds the
budget `B`: below the edge-bias threshold the result has exactly
`min(edges, ceil(0.7·B))` edge-class points — so the claimed edge bound holds —
and its total length is `edgeBudget + min(interior, B − edgeBudget)`, which
equals `B` exactly whenever enough interior pixels are available
(`B − edgeBudget ≤ interior`); at or above the threshold the length is exactly
`B` unconditionally. -/
theorem C1_amended (edgePoints interiorPoints : List SamplePoint) (B : Nat)
    (hraw : B < edgePoints.length + interiorPoints.length) :
    (B < EDGE_BIAS_THRESHOLD →
      (sampleFromClassified edgePoints interiorPoints B).length
          = min edgePoints.length (ceilSeventyPercent B)
            + min interiorPoints.length (B - min edgePoints.length (ceilSeventyPercent B)) ∧
      (sampleFromClassified edgePoints interiorPoints B).countP
          (fun q => decide (q.1 = PixelClass.edge))
          = min edgePoints.length (ceilSeventyPercent B) ∧
      (B - min edgePoints.length (ceilSeventyPercent B) ≤ interiorPoints.length →
        (sampleFromClassified edgePoints interiorPoints B).length = B)) ∧
    (EDGE_BIAS_THRESHOLD ≤ B →
      (sampleFromClassified edgePoints interiorPoints B).length = B) := by
  have hne : ¬(edgePoints.length + interiorPoints.length = 0) := by omega
  have hlen : ¬((edgePoints.map (fun p => (PixelClass.edge, p))
      ++ interiorPoints.map (fun p => (PixelClass.interior, p))).length ≤ B) := by
    simp only [List.length_append, List.length_map]; omega
  constructor
  · intro hB
    have hsample : sampleFromClassified edgePoints interiorPoints B
        = subsampleArr (edgePoints.map (fun p => (PixelClass.edge, p)))
            (min edgePoints.length (ceilSeventyPercent B))
          ++ subsampleArr (interiorPoints.map (fun p => (PixelClass.interior, p)))
            (B - min edgePoints.length (ceilSeventyPercent B)) := by
      unfold sampleFromClassified
      rw [if_neg hne, if_neg hlen, if_pos hB]
    have hceil : ceilSeventyPercent B ≤ B := by
      unfold ceilSeventyPercent; omega
    have hEB : min edgePoints.length (ceilSeventyPercent B) ≤ B :=
      le_trans (Nat.min_le_right _ _) hceil
    refine ⟨?_, ?_, ?_⟩
    · rw [hsample, List.length_append, subsampleArr_length, subsampleArr_length,
        List.length_map, List.length_map]
      have hminE : min edgePoints.length (min edgePoints.length (ceilSeventyPercent B))
          = min edgePoints.length (ceilSeventyPercent B) :=
        Nat.min_eq_right (Nat.min_le_left _ _)
      rw [hminE]
    · rw [hsample, List.countP_append]
      have hedge : (subsampleArr (edgePoints.map (fun p => (PixelClass.edge, p)))
          (min edgePoints.length (ceilSeventyPercent B))).countP
            (fun q => decide (q.1 = PixelClass.edge))
          = (subsampleArr (edgePoints.map (fun p => (PixelClass.edge, p)))
          (min edgePoints.length (ceilSeventyPercent B))).length := by
        rw [List.countP_eq_length]
        refine subsampleArr_all _ _ (by decide) ?_
        intro a ha
        simp only [List.mem_map] at ha
        obtain ⟨p, _, rfl⟩ := ha
        simp
      have hint : (subsampleArr (interiorPoints.map (fun p => (PixelClass.interior, p)))
          (B - min edgePoints.length (ceilSeventyPercent B))).countP
            (fun q => decide (q.1 = PixelClass.edge)) = 0 := by
        rw [List.countP_eq_zero]
        intro a ha
        have := subsampleArr_mem _ _ ha
        simp only [List.mem_map] at this
        obtain ⟨p, _, rfl⟩ := this
        simp
      rw [hedge, hint, subsampleArr_length, List.length_map,
        Nat.min_eq_right (Nat.min_le_left _ _), Nat.add_zero]
    · intro hI
      rw [hsample, List.length_append, subsampleArr_length, subsampleArr_length,
        List.length_map, List.length_map, Nat.min_eq_right (Nat.min_le_left _ _),
        Nat.min_eq_right hI]
      omega
  · intro hB
    have hsample : sampleFromClassified edgePoints interiorPoints B
        = subsampleArr (edgePoints.map (fun p => (PixelClass.edge, p))
            ++ interiorPoints.map (fun p => (PixelClass.interior, p))) B := by
      unfold sampleFromClassified
      rw [if_neg hne, if_neg hlen, if_neg (by omega)]
    rw [hsample, subsampleArr_length, List.length_append, List.length_map,
      List.length_map, Nat.min_eq_right (by omega)]

/-- C1 amended witness: on a classified input with 3 edge and 4 interior pixels
and budget 5, the edge-biased branch returns exactly 5 points of which 3 are
edge-class (`min(3, ceil(3.5)) = 3`). -/
theorem C1_amended_witness :
    (sampleFromClassified [⟨0, 0⟩, ⟨1, 0⟩, ⟨2, 0⟩]
        [⟨0, 1⟩, ⟨1, 1⟩, ⟨2, 1⟩, ⟨3, 1⟩] 5).length = 5 :=
  (((C1_amended [⟨0, 0⟩, ⟨1, 0⟩, ⟨2, 0⟩] [⟨0, 1⟩, ⟨1, 1⟩, ⟨2, 1⟩, ⟨3, 1⟩] 5
      (by decide)).1 (by decide)).2.2 (by decide))

/-- C7: whenever the raw opaque pixel count is at most the budget, the sampler
returns exactly the full classified sequence — all raw pixels, edges first —
so its length is the raw count and every edge-class point precedes every
interior-class point. -/
theorem C7_under_budget (edgePoints interiorPoints : List SamplePoint) (B : Nat)
    (h : edgePoints.length + interiorPoints.length ≤ B) :
    sampleFromClassified edgePoints interiorPoints B
        = edgePoints.map (fun p => (PixelClass.edge, p))
          ++ interiorPoints.map (fun p => (PixelClass.interior, p)) ∧
    (sampleFromClassified edgePoints interiorPoints B).length
        = edgePoints.length + interiorPoints.length ∧
    (sampleFromClassified edgePoints interiorPoints B).Pairwise
        (fun a b => a.1 = PixelClass.edge ∨ b.1 = PixelClass.interior) := by
  have hsample : sampleFromClassified edgePoints interiorPoints B
      = edgePoints.map (fun p => (PixelClass.edge, p))
        ++ interiorPoints.map (fun p => (PixelClass.interior, p)) := by
    unfold sampleFromClassified
    rcases Nat.eq_zero_or_pos (edgePoints.length + interiorPoints.length) with h0 | h0
    · rw [if_pos h0]
      have he : edgePoints = [] := List.length_eq_zero.mp (by omega)
      have hi : interiorPoints = [] := List.length_eq_zero.mp (by omega)
      rw [he, hi]; rfl
    · rw [if_neg (by omega), if_pos (by simp only [List.length_append, List.length_map]; omega)]
  refine ⟨hsample, ?_, ?_⟩
  · rw [hsample]; simp
  · rw [hsample]
    rw [List.pairwise_append]
    refine ⟨?_, ?_, ?_⟩
    · refine List.pairwise_of_forall_mem_list ?_
      intro a ha b _
      simp only [List.mem_map] at ha
      obtain ⟨p, _, rfl⟩ := ha
      exact Or.inl rfl
    · refine List.pairwise_of_forall_mem_list ?_
      intro a _ b hb
      simp only [List.mem_map] at hb
      obtain ⟨p, _, rfl⟩ := hb
      exact Or.inr rfl
    · intro a ha b _
      simp only [List.mem_map] at ha
      obtain ⟨p, _, rfl⟩ := ha
      exact Or.inl rfl

/-- C7 witness: with one edge pixel, one interior pixel and budget 5 the whole
classified sequence comes back, edges first. -/
theorem C7_under_budget_witness :
    sampleFromClassified [⟨0, 0⟩] [⟨1, 1⟩] 5
      = [(PixelClass.edge, ⟨0, 0⟩), (PixelClass.interior, ⟨1, 1⟩)] :=
  (C7_under_budget [⟨0, 0⟩] [⟨1, 1⟩] 5 (by decide)).1

/-- Physical state of one particle (`Particle` class with the frame-rate
normalized integrator). Coordinates, velocities and the blend factor are
modelled as real numbers. -/
structure Particle where
  x : ℝ
  y : ℝ
  vx : ℝ
  vy : ℝ
  homeX : ℝ
  homeY : ℝ
  color : Int
  hitColor : Int
  alpha : ℝ
  radius : ℝ
  frozen : Bool
  colorBlend : ℝ

/-- Field initializers of `new Particle()`. -/
def Particle.mk0 : Particle :=
  { x := 0, y := 0, vx := 0, vy := 0, homeX := 0, homeY := 0,
    color := 0x39ff14, hitColor := 0xff4444, alpha := 1, radius := 1.5,
    frozen := false, colorBlend := 0 }

/-- One integration step of `Particle.update(dt, forceX, forceY, friction, ease)`,
translated statement by statement: normalize `dt` to the 60 fps factor
`dtN = min(dt·60, 3)`; a frozen particle only drifts `0.5%·dtN` of the
remaining distance toward home and decays its color blend; otherwise the force
is added to the velocity un-scaled, the spring term `ease·dtN·(home − pos)` is
added, the velocity is damped by `friction^dtN`, and the position advances by
`velocity·dt` (the raw elapsed time). -/
noncomputable def Particle.update (p : Particle)
    (dt forceX forceY friction ease : ℝ) : Particle :=
  let dtN := min (dt * 60) 3
  if p.frozen then
    let dx := p.homeX - p.x
    let dy := p.homeY - p.y
    { p with
      x := p.x + dx * 0.005 * dtN,
      y := p.y + dy * 0.005 * dtN,
      colorBlend := p.colorBlend * (0.98 : ℝ) ^ dtN }
  else
    let vx1 := p.vx + forceX
    let vy1 := p.vy + forceY
    let dx := p.homeX - p.x
    let dy := p.homeY - p.y
    let vx2 := vx1 + dx * ease * dtN
    let vy2 := vy1 + dy * ease * dtN
    let fric := friction ^ dtN
    let vx3 := vx2 * fric
    let vy3 := vy2 * fric
    let x1 := p.x + vx3 * dt
    let y1 := p.y + vy3 * dt
    let forceMag := Real.sqrt (forceX * forceX + forceY * forceY)
    { p with
      vx := vx3, vy := vy3, x := x1, y := y1,
      colorBlend := min 1 (p.colorBlend + forceMag * 0.12) * (0.92 : ℝ) ^ dtN }

/-- C3: on a non-frozen particle, one update step computes
`dtN = min(dt·60, 3)`, adds the supplied force to the velocity un-scaled, adds
the spring term `ease·dtN·(home − position)`, damps the result by
`friction^dtN`, and advances the position by the new velocity times the raw
`dt` (not `dtN`). -/
theorem C3_update_formula (p : Particle) (dt forceX forceY friction ease : ℝ)
    (hf : p.frozen = false) :
    (p.update dt forceX forceY friction ease).vx
        = (p.vx + forceX + ease * min (dt * 60) 3 * (p.homeX - p.x))
          * friction ^ (min (dt * 60) 3) ∧
    (p.update dt forceX forceY friction ease).vy
        = (p.vy + forceY + ease * min (dt * 60) 3 * (p.homeY - p.y))
          * friction ^ (min (dt * 60) 3) ∧
    (p.update dt forceX forceY friction ease).x
        = p.x + (p.update dt forceX forceY friction ease).vx * dt ∧
    (p.update dt forceX forceY friction ease).y
        = p.y + (p.update dt forceX forceY friction ease).vy * dt := by
  simp only [Particle.update, hf, Bool.false_eq_true, if_false]
  refine ⟨?_, ?_, ?_, ?_⟩ <;> first | trivial | ring

/-- C3 witness: the formula instantiated on a concrete non-frozen particle. -/
theorem C3_update_formula_witness :
    ({ Particle.mk0 with x := 7, vx := 2 }.update 1 5 0 (1/2) (1/10)).vx
      = (2 + 5 + 1/10 * min (1 * 60) 3 * (0 - 7)) * (1/2 : ℝ) ^ (min ((1 : ℝ) * 60) 3) :=
  (C3_update_formula { Particle.mk0 with x := 7, vx := 2 } 1 5 0 (1/2) (1/10) rfl).1

/-- C4: one update step on a frozen particle drifts the position by exactly
`0.005·dtN` of the remaining distance toward home, leaves both velocity
components unchanged, and produces a state that does not depend on the
supplied force components at all. -/
theorem C4_frozen_drift (p : Particle) (dt forceX forceY forceX' forceY' friction ease : ℝ)
    (hf : p.frozen = true) :
    (p.update dt forceX forceY friction ease).x
        = p.x + (p.homeX - p.x) * 0.005 * min (dt * 60) 3 ∧
    (p.update dt forceX forceY friction ease).y
        = p.y + (p.homeY - p.y) * 0.005 * min (dt * 60) 3 ∧
    (p.update dt forceX forceY friction ease).vx = p.vx ∧
    (p.update dt forceX forceY friction ease).vy = p.vy ∧
    p.update dt forceX forceY friction ease
        = p.update dt forceX' forceY' friction ease := by
  simp only [Particle.update, hf, if_true]
  refine ⟨?_, ?_, ?_, ?_, ?_⟩ <;> trivial

/-- C4 witness: a concrete frozen particle pushed with two very different
forces ends up in the same state. -/
theorem C4_frozen_drift_witness :
    { Particle.mk0 with x := 4, frozen := true }.update 1 100 100 (1/2) (1/10)
      = { Particle.mk0 with x := 4, frozen := true }.update 1 0 (-3) (1/2) (1/10) :=
  (C4_frozen_drift { Particle.mk0 with x := 4, frozen := true }
      1 100 100 0 (-3) (1/2) (1/10) rfl).2.2.2.2

/-- Euclidean distance from a particle's position to its home anchor. -/
noncomputable def Particle.homeDist (p : Particle) : ℝ :=
  Real.sqrt ((p.x - p.homeX) ^ 2 + (p.y - p.homeY) ^ 2)

/-- Concrete non-frozen particle at rest one unit away from its home. -/
def cexParticle : Particle := { Particle.mk0 with x := 1 }

theorem rpow_three_half : ((1 : ℝ) / 2) ^ ((3 : ℝ)) = 1 / 8 := by
  rw [show ((3 : ℝ)) = ((3 : ℕ) : ℝ) by norm_num, Real.rpow_natCast]
  norm_num

/-- C2 counterexample: a non-frozen particle at rest with zero external force,
friction 1/2 ∈ (0,1) and ease 1 > 0, updated with dt = 10 ≥ 0, ends up
strictly farther from home (distance 11/4) than it started (distance 1):
position integrates by the raw `dt`, which the `dtN` clamp does not bound, so
one update can overshoot and the iteration can diverge for large `dt`. -/
theorem C2_counterexample :
    cexParticle.frozen = false ∧
    (0 : ℝ) < 1 / 2 ∧ (1 / 2 : ℝ) < 1 ∧ (0 : ℝ) < 1 ∧ (0 : ℝ) ≤ 10 ∧
    cexParticle.homeDist < (cexParticle.update 10 0 0 (1 / 2) 1).homeDist := by
  have hmin : min ((10 : ℝ) * 60) 3 = 3 := by norm_num
  have hx : (cexParticle.update 10 0 0 (1 / 2) 1).x = -(11 / 4 : ℝ) := by
    simp only [Particle.update, cexParticle, Particle.mk0, Bool.false_eq_true, if_false]
    rw [hmin, rpow_three_half]
    norm_num
  have hy : (cexParticle.update 10 0 0 (1 / 2) 1).y = 0 := by
    simp only [Particle.update, cexParticle, Particle.mk0, Bool.false_eq_true, if_false]
    rw [hmin, rpow_three_half]
    norm_num
  have hhx : (cexParticle.update 10 0 0 (1 / 2) 1).homeX = 0 := rfl
  have hhy : (cexParticle.update 10 0 0 (1 / 2) 1).homeY = 0 := rfl
  refine ⟨rfl, by norm_num, by norm_num, by norm_num, by norm_num, ?_⟩
  unfold Particle.homeDist
  rw [hx, hy, hhx, hhy]
  have h1 : ((cexParticle.x - cexParticle.homeX) ^ 2 + (cexParticle.y - cexParticle.homeY) ^ 2)
      = 1 := by
    simp only [cexParticle, Particle.mk0]
    norm_num
  rw [h1]
  have h2 : ((-(11 / 4 : ℝ) - 0) ^ 2 + ((0 : ℝ) - 0) ^ 2) = 121 / 16 := by norm_num
  rw [h2]
  exact Real.sqrt_lt_sqrt (by norm_num) (by norm_num)

/-- C2 (amended): monotone approach to home holds for a particle at rest
provided the combined per-step gain `ease·dtN·friction^dtN·dt` stays below 2
(which the caller's `dt ≤ 0.05` cap ensures for the shipped constants): one
update from rest with zero force, friction ∈ (0,1), ease > 0 and dt > 0 then
strictly decreases the distance to home. Without a bound on `dt` the distance
can grow (see the counterexample), because position integrates by raw `dt`. -/
theorem C2_amended (p : Particle) (dt friction ease : ℝ)
    (hf : p.frozen = false) (hvx : p.vx = 0) (hvy : p.vy = 0)
    (hfr0 : 0 < friction) (hfr1 : friction < 1) (he : 0 < ease) (hdt : 0 < dt)
    (hhome : p.x ≠ p.homeX ∨ p.y ≠ p.homeY)
    (hgain : ease * min (dt * 60) 3 * friction ^ (min (dt * 60) 3) * dt < 2) :
    (p.update dt 0 0 friction ease).homeDist < p.homeDist := by
  have hdtN : 0 < min (dt * 60) 3 := lt_min (by linarith) (by norm_num)
  have hfpow : 0 < friction ^ (min (dt * 60) 3) := Real.rpow_pos_of_pos hfr0 _
  have hc0 : 0 < ease * min (dt * 60) 3 * friction ^ (min (dt * 60) 3) * dt := by
    have h1 := mul_pos (mul_pos (mul_pos he hdtN) hfpow) hdt
    exact h1
  have hx' : (p.update dt 0 0 friction ease).x - p.homeX
      = (1 - ease * min (dt * 60) 3 * friction ^ (min (dt * 60) 3) * dt)
        * (p.x - p.homeX) := by
    simp only [Particle.update, hf, Bool.false_eq_true, if_false]
    rw [hvx]
    ring
  have hy' : (p.update dt 0 0 friction ease).y - p.homeY
      = (1 - ease * min (dt * 60) 3 * friction ^ (min (dt * 60) 3) * dt)
        * (p.y - p.homeY) := by
    simp only [Particle.update, hf, Bool.false_eq_true, if_false]
    rw [hvy]
    ring
  have hhx : (p.update dt 0 0 friction ease).homeX = p.homeX := by
    simp only [Particle.update, hf, Bool.false_eq_true, if_false]
  have hhy : (p.update dt 0 0 friction ease).homeY = p.homeY := by
    simp only [Particle.update, hf, Bool.false_eq_true, if_false]
  have hD : 0 < (p.x - p.homeX) ^ 2 + (p.y - p.homeY) ^ 2 := by
    rcases hhome with h | h
    · have h1 : 0 < (p.x - p.homeX) ^ 2 := by
        rw [sq]
        exact mul_self_pos.mpr (sub_ne_zero.mpr h)
      have h2 : 0 ≤ (p.y - p.homeY) ^ 2 := sq_nonneg _
      linarith
    · have h1 : 0 < (p.y - p.homeY) ^ 2 := by
        rw [sq]
        exact mul_self_pos.mpr (sub_ne_zero.mpr h)
      have h2 : 0 ≤ (p.x - p.homeX) ^ 2 := sq_nonneg _
      linarith
  have hlt : (1 - ease * min (dt * 60) 3 * friction ^ (min (dt * 60) 3) * dt) ^ 2 < 1 := by
    have h1 : |1 - ease * min (dt * 60) 3 * friction ^ (min (dt * 60) 3) * dt| < 1 :=
      abs_lt.mpr ⟨by linarith, by linarith⟩
    calc (1 - ease * min (dt * 60) 3 * friction ^ (min (dt * 60) 3) * dt) ^ 2
        = |1 - ease * min (dt * 60) 3 * friction ^ (min (dt * 60) 3) * dt| ^ 2 :=
          (sq_abs _).symm
      _ < 1 ^ 2 := by
          exact pow_lt_pow_left₀ h1 (abs_nonneg _) (by norm_num)
      _ = 1 := one_pow 2
  unfold Particle.homeDist
  rw [hhx, hhy]
  apply Real.sqrt_lt_sqrt (by positivity)
  rw [hx', hy']
  have hsq : ((1 - ease * min (dt * 60) 3 * friction ^ (min (dt * 60) 3) * dt)
          * (p.x - p.homeX)) ^ 2
        + ((1 - ease * min (dt * 60) 3 * friction ^ (min (dt * 60) 3) * dt)
          * (p.y - p.homeY)) ^ 2
      = (1 - ease * min (dt * 60) 3 * friction ^ (min (dt * 60) 3) * dt) ^ 2
          * ((p.x - p.homeX) ^ 2 + (p.y - p.homeY) ^ 2) := by ring
  rw [hsq]
  calc (1 - ease * min (dt * 60) 3 * friction ^ (min (dt * 60) 3) * dt) ^ 2
          * ((p.x - p.homeX) ^ 2 + (p.y - p.homeY) ^ 2)
      < 1 * ((p.x - p.homeX) ^ 2 + (p.y - p.homeY) ^ 2) :=
        mul_lt_mul_of_pos_right hlt hD
    _ = (p.x - p.homeX) ^ 2 + (p.y - p.homeY) ^ 2 := one_mul _

/-- C2 amended witness: one small step (dt = 1/60) from rest at distance 1
strictly decreases the distance to home. -/
theorem C2_amended_witness :
    (cexParticle.update (1 / 60) 0 0 (1 / 2) 1).homeDist < cexParticle.homeDist :=
  C2_amended cexParticle (1 / 60) (1 / 2) 1 rfl rfl rfl (by norm_num) (by norm_num)
    (by norm_num) (by norm_num)
    (Or.inl (by simp only [cexParticle, Particle.mk0]; norm_num))
    (by
      have h : min ((1 / 60 : ℝ) * 60) 3 = 1 := by norm_num
      rw [h, Real.rpow_one]
      norm_num)

/-- Mutable state of `FPSMonitor`: the rolling sample buffer with its write
index, the previous tick timestamp, the smoothed fps, and the two hysteresis
timer origins (`0` meaning "not running"). Timestamps are exact rationals in
milliseconds. -/
structure FPSMonitor where
  samples : List ℚ
  sampleCount : ℕ
  index : ℕ
  lastTime : ℚ
  fps : ℚ
  lowFpsStart : ℚ
  highFpsStart : ℚ

/-- Threshold below which fps counts as sustained-low. -/
def lowThreshold : ℚ := 15

/-- Threshold above which fps counts as sustained-high. -/
def highThreshold : ℚ := 50

/-- Milliseconds of sustained-low fps required before a reduce directive. -/
def lowDuration : ℚ := 5000

/-- Milliseconds of sustained-high fps required before a restore directive. -/
def highDuration : ℚ := 8000

/-- Fresh monitor (`new FPSMonitor(sampleCount)`): buffer pre-filled with 60. -/
def FPSMonitor.mkNew (sampleCount : ℕ) : FPSMonitor :=
  { samples := List.replicate sampleCount 60, sampleCount := sampleCount,
    index := 0, lastTime := 0, fps := 60, lowFpsStart := 0, highFpsStart := 0 }

/-- Per-frame sampling step `FPSMonitor.tick(now)`: records the instantaneous
fps `1000/dt` in the circular buffer and refreshes the arithmetic mean. -/
def FPSMonitor.tick (m : FPSMonitor) (now : ℚ) : FPSMonitor :=
  if m.lastTime = 0 then { m with lastTime := now }
  else
    let dt := now - m.lastTime
    let m1 := { m with lastTime := now }
    if dt ≤ 0 then m1
    else
      let samples1 := m1.samples.set (m1.index % m1.sampleCount) (1000 / dt)
      { m1 with
        samples := samples1,
        index := m1.index + 1,
        fps := samples1.sum / m1.sampleCount }

/-- Level-of-detail directive emitted by the monitor. -/
inductive LodAction
  | reduce
  | restore
deriving DecidableEq

/-- Timer origin used by `lodAction`: a zero start value means "not running",
so the timer effectively starts at the current call (`if (start === 0) start = now`). -/
def timerOrigin (start now : ℚ) : ℚ :=
  if start = 0 then now else start

/-- Hysteresis step `FPSMonitor.lodAction(now)`, returning the directive (if
any) together with the updated timer state: a low fps starts (or continues)
the low timer and cancels the high timer, firing `reduce` and re-arming once
more than `lowDuration` has passed; symmetrically for high fps and `restore`;
a mid-band fps cancels both timers. -/
def FPSMonitor.lodAction (m : FPSMonitor) (now : ℚ) :
    Option LodAction × FPSMonitor :=
  if m.fps < lowThreshold then
    if lowDuration < now - timerOrigin m.lowFpsStart now then
      (some LodAction.reduce, { m with lowFpsStart := now, highFpsStart := 0 })
    else
      (none, { m with lowFpsStart := timerOrigin m.lowFpsStart now, highFpsStart := 0 })
  else if highThreshold < m.fps then
    if highDuration < now - timerOrigin m.highFpsStart now then
      (some LodAction.restore, { m with highFpsStart := now, lowFpsStart := 0 })
    else
      (none, { m with highFpsStart := timerOrigin m.highFpsStart now, lowFpsStart := 0 })
  else
    (none, { m with lowFpsStart := 0, highFpsStart := 0 })

/-- One observation of the driving loop: the frame timestamp paired with the
smoothed fps the buffer holds at that moment (ticks between two `lodAction`
calls only modify `samples`/`fps`, never the hysteresis timers). -/
def FPSMonitor.observe (m : FPSMonitor) (obs : ℚ × ℚ) :
    Option LodAction × FPSMonitor :=
  FPSMonitor.lodAction { m with fps := obs.2 } obs.1

/-- Directives produced by a sequence of observations. -/
def FPSMonitor.lodTrace (m : FPSMonitor) : List (ℚ × ℚ) → List (Option LodAction)
  | [] => []
  | o :: os =>
    ((m.observe o).1) :: FPSMonitor.lodTrace (m.observe o).2 os

theorem lodAction_reduce_inv (m : FPSMonitor) (now t : ℚ)
    (hinv : m.lowFpsStart = 0 ∨ t ≤ m.lowFpsStart) (hnow : t ≤ now) :
    ((m.lodAction now).2.lowFpsStart = 0 ∨ t ≤ (m.lodAction now).2.lowFpsStart) ∧
    ((m.lodAction now).1 = some LodAction.reduce →
      m.lowFpsStart ≠ 0 ∧ lowDuration < now - m.lowFpsStart) := by
  unfold FPSMonitor.lodAction
  rcases lt_or_ge m.fps lowThreshold with hlow | hge
  · rw [if_pos hlow]
    rcases eq_or_ne m.lowFpsStart 0 with h0 | h0
    · have hto : timerOrigin m.lowFpsStart now = now := by
        unfold timerOrigin
        rw [if_pos h0]
      rw [hto]
      have hfire : ¬(lowDuration < now - now) := by
        simp only [sub_self]
        unfold lowDuration
        norm_num
      rw [if_neg hfire]
      exact ⟨Or.inr hnow, by simp⟩
    · have hto : timerOrigin m.lowFpsStart now = m.lowFpsStart := by
        unfold timerOrigin
        rw [if_neg h0]
      rw [hto]
      split
      · exact ⟨Or.inr hnow, fun _ => ⟨h0, by assumption⟩⟩
      · exact ⟨hinv, by simp⟩
  · rw [if_neg (not_lt.mpr hge)]
    rcases lt_or_ge highThreshold m.fps with hh | hh
    · rw [if_pos hh]
      split
      · exact ⟨Or.inl rfl, by simp⟩
      · exact ⟨Or.inl rfl, by simp⟩
    · rw [if_neg (not_lt.mpr hh)]
      exact ⟨Or.inl rfl, by simp⟩

theorem lodTrace_no_reduce (obs : List (ℚ × ℚ)) (m : FPSMonitor) (t : ℚ)
    (hinv : m.lowFpsStart = 0 ∨ t ≤ m.lowFpsStart)
    (hobs : ∀ o ∈ obs, t ≤ o.1 ∧ o.1 ≤ t + lowDuration) :
    some LodAction.reduce ∉ m.lodTrace obs := by
  induction obs generalizing m with
  | nil => simp [FPSMonitor.lodTrace]
  | cons o os ih =>
    simp only [FPSMonitor.lodTrace, List.mem_cons] at *
    have ho := hobs o (Or.inl rfl)
    have hstep := lodAction_reduce_inv { m with fps := o.2 } o.1 t
      (by simpa using hinv) ho.1
    rintro (hfire | hrest)
    · have := (hstep.2 (by simpa [FPSMonitor.observe] using hfire.symm))
      rcases hinv with h0 | hle
      · exact this.1 (by simpa using h0)
      · have h1 : lowDuration < o.1 - m.lowFpsStart := by
          simpa using this.2
        have h2 : o.1 ≤ t + lowDuration := ho.2
        have h3 : t ≤ m.lowFpsStart := hle
        linarith
    · exact ih (m.observe o).2 (by simpa [FPSMonitor.observe] using hstep.1)
        (fun o2 ho2 => hobs o2 (Or.inr ho2)) hrest

/-- C6: hysteresis contract of the LOD controller. (1) A `reduce` directive is
returned only when the smoothed fps is below the low threshold and the running
low timer started more than the low duration (5 s) ago — in particular at
least 5 s of sustained-low have elapsed; (2) when it fires, the low timer
re-arms at the firing time, and no further `reduce` is returned by any
sequence of later observations within the next full 5 s window, whatever fps
values they carry — at most one directive per qualifying sustained interval;
(3) an fps between the two thresholds clears both timers and emits nothing. -/
theorem C6_lod_hysteresis (m : FPSMonitor) (now : ℚ) :
    ((m.lodAction now).1 = some LodAction.reduce →
      m.fps < lowThreshold ∧ m.lowFpsStart ≠ 0 ∧ lowDuration < now - m.lowFpsStart ∧
      (m.lodAction now).2.lowFpsStart = now ∧
      ∀ obs : List (ℚ × ℚ), (∀ o ∈ obs, now ≤ o.1 ∧ o.1 ≤ now + lowDuration) →
        some LodAction.reduce ∉ (m.lodAction now).2.lodTrace obs) ∧
    (lowThreshold ≤ m.fps → m.fps ≤ highThreshold →
      (m.lodAction now).1 = none ∧
      (m.lodAction now).2.lowFpsStart = 0 ∧ (m.lodAction now).2.highFpsStart = 0) := by
  constructor
  · intro hfire
    have hlow : m.fps < lowThreshold := by
      by_contra hge
      unfold FPSMonitor.lodAction at hfire
      rw [if_neg hge] at hfire
      rcases lt_or_ge highThreshold m.fps with hh | hh
      · rw [if_pos hh] at hfire
        split at hfire <;> simp_all
      · rw [if_neg (not_lt.mpr hh)] at hfire
        simp at hfire
    have honly2 : m.lowFpsStart ≠ 0 ∧ lowDuration < now - m.lowFpsStart := by
      by_cases h0 : m.lowFpsStart = 0
      · exfalso
        unfold FPSMonitor.lodAction at hfire
        have hto : timerOrigin m.lowFpsStart now = now := by
          unfold timerOrigin
          rw [if_pos h0]
        rw [if_pos hlow, hto] at hfire
        have hfalse : ¬(lowDuration < now - now) := by
          simp only [sub_self]
          unfold lowDuration
          norm_num
        rw [if_neg hfalse] at hfire
        simp at hfire
      · refine ⟨h0, ?_⟩
        unfold FPSMonitor.lodAction at hfire
        have hto : timerOrigin m.lowFpsStart now = m.lowFpsStart := by
          unfold timerOrigin
          rw [if_neg h0]
        rw [if_pos hlow, hto] at hfire
        by_contra hd
        rw [if_neg hd] at hfire
        simp at hfire
    have hreset : (m.lodAction now).2.lowFpsStart = now := by
      unfold FPSMonitor.lodAction
      have hto : timerOrigin m.lowFpsStart now = m.lowFpsStart := by
        unfold timerOrigin
        rw [if_neg honly2.1]
      rw [if_pos hlow, hto, if_pos honly2.2]
    refine ⟨hlow, honly2.1, honly2.2, hreset, ?_⟩
    intro obs hobs
    exact lodTrace_no_reduce obs (m.lodAction now).2 now (Or.inr (le_of_eq hreset.symm)) hobs
  · intro h1 h2
    unfold FPSMonitor.lodAction
    rw [if_neg (not_lt.mpr h1), if_neg (not_lt.mpr h2)]
    exact ⟨rfl, rfl, rfl⟩

/-- Concrete monitor state: smoothed fps 10, low timer running since 1 ms. -/
def wMon : FPSMonitor := { FPSMonitor.mkNew 60 with fps := 10, lowFpsStart := 1 }

/-- C6 witness: the monitor `wMon` observed at 6002 ms fires `reduce`
(5001 ms > 5000 ms of sustained-low); afterwards, observations at 7000 ms,
9000 ms and 11002 ms — all within the 5 s re-arm window — emit no further
`reduce`, whatever their fps. -/
theorem C6_lod_hysteresis_witness :
    some LodAction.reduce ∉
      ((wMon.lodAction 6002).2.lodTrace [(7000, 10), (9000, 10), (11002, 10)]) :=
  (((C6_lod_hysteresis wMon 6002).1
      (by
        unfold wMon FPSMonitor.lodAction FPSMonitor.mkNew timerOrigin
        norm_num [lowThreshold, lowDuration])).2.2.2.2)
    [(7000, 10), (9000, 10), (11002, 10)]
    (by
      intro o ho
      fin_cases ho <;> norm_num [lowDuration])

/-- Interaction mode selecting the force-direction policy. -/
inductive InteractionMode
  | repulse
  | attract
  | vortex
  | freeze
deriving DecidableEq

/-- Shared simulation configuration (`SimConfig`). -/
structure SimConfig where
  particleCount : ℕ
  repulsionForce : ℝ
  friction : ℝ
  ease : ℝ
  mode : InteractionMode

/-- Transient hand-landmark force source (`ForcePoint`). -/
structure ForcePoint where
  x : ℝ
  y : ℝ
  radius : ℝ
  strength : ℝ

/-- Body segmentation mask: a `width × height` byte grid, `>0` = person. -/
structure SegMask where
  width : ℕ
  height : ℕ
  data : ℕ → ℕ

/-- Canvas-space axis-aligned bounding box of the last known silhouette. -/
structure SilhouetteBBox where
  minX : ℝ
  minY : ℝ
  maxX : ℝ
  maxY : ℝ

/-- State of the particle pool (`ParticleSystem` of `ParticleSystem.ts`): the
live particles, the LOD target count, the configured ceiling, the cached home
positions of the current phrase, the cached silhouette box and the per-frame
transient force sources. -/
structure ParticleSystem where
  particles : List Particle
  targetCount : ℕ
  maxParticles : ℕ
  homePositions : List SamplePoint
  lastBBox : Option SilhouetteBBox
  config : SimConfig
  mousePos : Option (ℝ × ℝ)
  forcePoints : List ForcePoint

/-- Constructor `new ParticleSystem(config)`: both the ceiling and the target
start at the configured particle count, with an empty pool. -/
def ParticleSystem.mkNew (config : SimConfig) : ParticleSystem :=
  { particles := [], targetCount := config.particleCount,
    maxParticles := config.particleCount, homePositions := [], lastBBox := none,
    config := config, mousePos := none, forcePoints := [] }

/-- Home remap of the first `min(old, new)` particles in `transitionTo`: the
home anchor is replaced and the particle is thawed; position and velocity are
untouched. -/
def remapP (p : Particle) (h : SamplePoint) : Particle :=
  { p with homeX := (h.homeX : ℝ), homeY := (h.homeY : ℝ), frozen := false }

/-- In-place remap loop of `transitionTo` (`for i < min(old,new)`), expressed
structurally: the i-th particle gets the i-th new home while it exists. -/
def remapHomes : List Particle → List SamplePoint → List Particle
  | [], _ => []
  | ps, [] => ps
  | p :: ps, h :: hs => remapP p h :: remapHomes ps hs

/-- Spawn of one growth-loop particle in `transitionTo`: a fresh particle
placed at the current position of the pool entry `pick i` (the model of
`particles[Math.floor(Math.random() * particles.length)]`, where `i` is the
pool length at spawn time), falling back to a random canvas position when the
pool is empty, homed at the i-th new anchor. -/
def mkSpawn (ps : List Particle) (newHomes : List SamplePoint)
    (pick : ℕ → ℕ) (randPos : ℕ → ℝ × ℝ) : Particle :=
  let i := ps.length
  let h := newHomes.getD i ⟨0, 0⟩
  match ps[pick i]? with
  | some src =>
    { Particle.mk0 with
      x := src.x, y := src.y,
      homeX := (h.homeX : ℝ), homeY := (h.homeY : ℝ) }
  | none =>
    { Particle.mk0 with
      x := (randPos i).1, y := (randPos i).2,
      homeX := (h.homeX : ℝ), homeY := (h.homeY : ℝ) }

/-- Growth loop of `transitionTo`: appends `k` spawned particles one at a
time (the source's `push` inside the loop, so later spawns may pick earlier
spawns as their position source). -/
def growLoop (newHomes : List SamplePoint) (pick : ℕ → ℕ) (randPos : ℕ → ℝ × ℝ) :
    List Particle → ℕ → List Particle
  | ps, 0 => ps
  | ps, k + 1 =>
    growLoop newHomes pick randPos (ps ++ [mkSpawn ps newHomes pick randPos]) k

/-- Phrase transition `transitionTo(text, w, h)` with the sampled anchors of
the new phrase supplied directly (the sampler call is the boundary of this
embedding): remap the first `min(old, new)` homes in place, grow while the
new anchor count and `targetCount` allow, then truncate to the new anchor
count. `pick`/`randPos` model the `Math.random()` draws. -/
def ParticleSystem.transitionTo (s : ParticleSystem) (newHomes : List SamplePoint)
    (pick : ℕ → ℕ) (randPos : ℕ → ℝ × ℝ) : ParticleSystem :=
  let count := min s.particles.length newHomes.length
  let remapped := remapHomes s.particles newHomes
  let grown := growLoop newHomes pick randPos remapped
    (min newHomes.length s.targetCount - count)
  { s with homePositions := newHomes, particles := grown.take newHomes.length }

/-- Pool rebuild `_rebuildParticles(homes)`: `min(homes, targetCount)` fresh
particles at their homes offset by the ±40 px scatter-in jitter
(`jitter i ∈ [0,1)²` models the two `Math.random()` draws). -/
def rebuildParticles (homes : List SamplePoint) (tc : ℕ) (jitter : ℕ → ℝ × ℝ) :
    List Particle :=
  (List.range (min homes.length tc)).map fun i =>
    let h := homes.getD i ⟨0, 0⟩
    { Particle.mk0 with
      homeX := (h.homeX : ℝ), homeY := (h.homeY : ℝ),
      x := (h.homeX : ℝ) + ((jitter i).1 - 0.5) * 80,
      y := (h.homeY : ℝ) + ((jitter i).2 - 0.5) * 80 }

/-- Initialization `init(text, w, h)` with the sampled anchors supplied
directly: cache the homes and rebuild the whole pool. -/
def ParticleSystem.reInit (s : ParticleSystem) (newHomes : List SamplePoint)
    (jitter : ℕ → ℝ × ℝ) : ParticleSystem :=
  { s with homePositions := newHomes,
           particles := rebuildParticles newHomes s.targetCount jitter }

/-- LOD shrink `reduceLOD()`: `targetCount := max(3000, ⌊targetCount·0.9⌋)`
(exact integer floor of the 10% shrink), then truncate the pool to the target.
The `take` is the source's conditional `particles.length = targetCount`. -/
def ParticleSystem.reduceLOD (s : ParticleSystem) : ParticleSystem :=
  let tc := max 3000 (9 * s.targetCount / 10)
  { s with targetCount := tc, particles := s.particles.take tc }

/-- LOD grow `restoreLOD(w, h)`: no-op at the ceiling, otherwise
`targetCount := min(maxParticles, ⌊targetCount·1.33⌋)` and spawn particles for
the home positions `slice(particles.length, targetCount)` with ±30 px jitter. -/
def ParticleSystem.restoreLOD (s : ParticleSystem) (jitter : ℕ → ℝ × ℝ) :
    ParticleSystem :=
  if s.maxParticles ≤ s.targetCount then s
  else
    let tc := min s.maxParticles (133 * s.targetCount / 100)
    let homes := (s.homePositions.drop s.particles.length).take (tc - s.particles.length)
    { s with
      targetCount := tc,
      particles := s.particles ++ homes.mapIdx (fun i h =>
        { Particle.mk0 with
          homeX := (h.homeX : ℝ), homeY := (h.homeY : ℝ),
          x := (h.homeX : ℝ) + ((jitter i).1 - 0.5) * 60,
          y := (h.homeY : ℝ) + ((jitter i).2 - 0.5) * 60 }) }

/-- Silhouette bounding box recomputation `_computeBBox(mask, w, h)`: scan the
whole mask for person pixels, track the min/max mask coordinates, and scale to
canvas space; `none` when the mask has no person pixel. -/
noncomputable def computeBBox (mask : SegMask) (canvasWidth canvasHeight : ℝ) :
    Option SilhouetteBBox :=
  let scan := (List.range mask.height).foldl
    (fun acc my =>
      (List.range mask.width).foldl
        (fun acc2 mx =>
          if 0 < mask.data (my * mask.width + mx) then
            (min acc2.1 mx, max acc2.2.1 mx, min acc2.2.2.1 my, max acc2.2.2.2.1 my, true)
          else acc2)
        acc)
    (mask.width, 0, mask.height, 0, false)
  if scan.2.2.2.2 then
    some { minX := (scan.1 : ℝ) * (canvasWidth / mask.width),
           maxX := (scan.2.1 : ℝ) * (canvasWidth / mask.width),
           minY := (scan.2.2.1 : ℝ) * (canvasHeight / mask.height),
           maxY := (scan.2.2.2.1 : ℝ) * (canvasHeight / mask.height) }
  else none

/-- One force-point pass of the `updateAll` inner loop: inside the radius (and
beyond the `0.1` squared-distance epsilon) the mode decides a radial,
tangential or freezing action; outside, a frozen particle thaws when any force
points exist at all. The accumulator carries the (possibly freeze-damped)
particle and the force components gathered so far. -/
noncomputable def fpStep (mode : InteractionMode) (numForcePoints : ℕ)
    (acc : Particle × ℝ × ℝ) (fp : ForcePoint) : Particle × ℝ × ℝ :=
  let p := acc.1
  let fx := acc.2.1
  let fy := acc.2.2
  let dx := p.x - fp.x
  let dy := p.y - fp.y
  let dist2 := dx * dx + dy * dy
  let r2 := fp.radius * fp.radius
  if dist2 < r2 ∧ 0.1 < dist2 then
    let dist := Real.sqrt dist2
    let falloff := 1 - dist / fp.radius
    let scale := fp.strength * falloff
    match mode with
    | InteractionMode.repulse => (p, fx + dx / dist * scale, fy + dy / dist * scale)
    | InteractionMode.attract => (p, fx - dx / dist * scale * 0.7, fy - dy / dist * scale * 0.7)
    | InteractionMode.vortex => (p, fx + (-dy) / dist * scale, fy + dx / dist * scale)
    | InteractionMode.freeze => ({ p with vx := p.vx * 0.6, vy := p.vy * 0.6, frozen := true }, fx, fy)
  else if p.frozen ∧ 0 < numForcePoints then
    ({ p with frozen := false }, fx, fy)
  else acc

/-- Mouse/touch fallback force of `updateAll`: linear falloff inside the fixed
120 px radius, repulsion scaled by `repulsionForce · 3`. -/
noncomputable def mouseForce (repulsionForce : ℝ) (mousePos : Option (ℝ × ℝ))
    (p : Particle) : ℝ × ℝ :=
  match mousePos with
  | none => (0, 0)
  | some mp =>
    let mdx := p.x - mp.1
    let mdy := p.y - mp.2
    let mdist2 := mdx * mdx + mdy * mdy
    let mr2 := (120 : ℝ) * 120
    if mdist2 < mr2 ∧ 0 < mdist2 then
      let mdist := Real.sqrt mdist2
      let strength := (1 - mdist / 120) * repulsionForce * 3
      (mdx / mdist * strength, mdy / mdist * strength)
    else (0, 0)

/-- Body-mask pass of the `updateAll` inner loop: with a mask and noticeable
motion, a particle inside the 40 px-expanded silhouette box samples the mask
(with the X flip compensating the mirrored video) and, when on a person pixel,
is pushed/pulled/orbited relative to the body centre or frozen; on a non-person
pixel it thaws when no force points exist. Without a mask and without force
points a frozen particle thaws. -/
noncomputable def bodyStep (mask? : Option SegMask) (bbox : Option SilhouetteBBox)
    (mode : InteractionMode) (repulsionForce motionIntensity bodyX bodyY : ℝ)
    (canvasWidth canvasHeight : ℝ) (numForcePoints : ℕ)
    (acc : Particle × ℝ × ℝ) : Particle × ℝ × ℝ :=
  let p := acc.1
  let fx := acc.2.1
  let fy := acc.2.2
  match mask? with
  | some mask =>
    if 0.01 < motionIntensity then
      let inBBox : Bool :=
        match bbox with
        | none => true
        | some bb => decide (bb.minX - 40 ≤ p.x) && decide (p.x ≤ bb.maxX + 40)
            && decide (bb.minY - 40 ≤ p.y) && decide (p.y ≤ bb.maxY + 40)
      if inBBox then
        let mx : ℤ := ⌊(canvasWidth - p.x) / canvasWidth * mask.width⌋
        let my : ℤ := ⌊p.y / canvasHeight * mask.height⌋
        if 0 ≤ mx ∧ mx < (mask.width : ℤ) ∧ 0 ≤ my ∧ my < (mask.height : ℤ) then
          if 0 < mask.data (my.toNat * mask.width + mx.toNat) then
            let scale := repulsionForce * motionIntensity * 0.5
            let dx := p.x - bodyX
            let dy := p.y - bodyY
            let dist := if Real.sqrt (dx * dx + dy * dy) = 0 then 1
              else Real.sqrt (dx * dx + dy * dy)
            match mode with
            | InteractionMode.repulse => (p, fx + dx / dist * scale, fy + dy / dist * scale)
            | InteractionMode.attract => (p, fx - dx / dist * scale * 0.6, fy - dy / dist * scale * 0.6)
            | InteractionMode.vortex => (p, fx + (-dy) / dist * scale, fy + dx / dist * scale)
            | InteractionMode.freeze =>
              ({ p with vx := p.vx * 0.8, vy := p.vy * 0.8, frozen := true }, fx, fy)
          else if p.frozen ∧ numForcePoints = 0 then
            ({ p with frozen := false }, fx, fy)
          else acc
        else acc
      else acc
    else acc
  | none =>
    if numForcePoints = 0 ∧ p.frozen then ({ p with frozen := false }, fx, fy)
    else acc

/-- Whole per-particle body of the `updateAll` loop: force points, then the
mouse fallback, then the body mask, then one `Particle.update` step with the
capped `dt`. -/
noncomputable def updateOneParticle (s : ParticleSystem) (bbox : Option SilhouetteBBox)
    (mask? : Option SegMask) (motionIntensity bodyX bodyY : ℝ)
    (canvasWidth canvasHeight dtCapped : ℝ) (p : Particle) : Particle :=
  let a1 := s.forcePoints.foldl (fpStep s.config.mode s.forcePoints.length) (p, 0, 0)
  let m := mouseForce s.config.repulsionForce s.mousePos a1.1
  let a2 := (a1.1, a1.2.1 + m.1, a1.2.2 + m.2)
  let a3 := bodyStep mask? bbox s.config.mode s.config.repulsionForce motionIntensity
    bodyX bodyY canvasWidth canvasHeight s.forcePoints.length a2
  Particle.update a3.1 dtCapped a3.2.1 a3.2.2 s.config.friction s.config.ease

/-- Per-frame update `updateAll(dt, mask, motionIntensity, w, h)`: cap the
elapsed time at 0.05 s, refresh the silhouette box when a mask arrived, derive
the body centre, and run the per-particle loop. -/
noncomputable def ParticleSystem.updateAll (s : ParticleSystem) (dt : ℝ)
    (mask? : Option SegMask) (motionIntensity canvasWidth canvasHeight : ℝ) :
    ParticleSystem :=
  let dtCapped := min dt 0.05
  let bbox := match mask? with
    | some mask => computeBBox mask canvasWidth canvasHeight
    | none => s.lastBBox
  let bodyX := match bbox with
    | some bb => (bb.minX + bb.maxX) / 2
    | none => canvasWidth / 2
  let bodyY := match bbox with
    | some bb => (bb.minY + bb.maxY) / 2
    | none => canvasHeight / 2
  { s with
    lastBBox := bbox,
    particles := s.particles.map (updateOneParticle s bbox mask? motionIntensity
      bodyX bodyY canvasWidth canvasHeight dtCapped) }

theorem remapHomes_length (ps : List Particle) (hs : List SamplePoint) :
    (remapHomes ps hs).length = ps.length := by
  induction ps generalizing hs with
  | nil => cases hs <;> rfl
  | cons p ps ih =>
    cases hs with
    | nil => rfl
    | cons h hs => simp [remapHomes, ih]

theorem remapHomes_getD (ps : List Particle) (hs : List SamplePoint) (i : ℕ)
    (d : Particle) (hi : i < ps.length) (hh : i < hs.length) :
    (remapHomes ps hs).getD i d = remapP (ps.getD i d) (hs.getD i ⟨0, 0⟩) := by
  induction ps generalizing hs i with
  | nil => simp at hi
  | cons p ps ih =>
    cases hs with
    | nil => simp at hh
    | cons h hs =>
      cases i with
      | zero => rfl
      | succ n =>
        simp only [remapHomes, List.getD_cons_succ]
        exact ih hs n (by simpa using hi) (by simpa using hh)

theorem growLoop_length (nh : List SamplePoint) (pk : ℕ → ℕ) (rp : ℕ → ℝ × ℝ)
    (k : ℕ) : ∀ ps : List Particle,
    (growLoop nh pk rp ps k).length = ps.length + k := by
  induction k with
  | zero => intro ps; rfl
  | succ k ih =>
    intro ps
    rw [growLoop, ih]
    simp only [List.length_append, List.length_singleton]
    omega

theorem growLoop_getD_of_lt (nh : List SamplePoint) (pk : ℕ → ℕ) (rp : ℕ → ℝ × ℝ)
    (k : ℕ) : ∀ (ps : List Particle) (i : ℕ) (d : Particle), i < ps.length →
    (growLoop nh pk rp ps k).getD i d = ps.getD i d := by
  induction k with
  | zero => intro ps i d _; rfl
  | succ k ih =>
    intro ps i d h
    rw [growLoop, ih _ _ _ (by simp only [List.length_append, List.length_singleton]; omega)]
    exact List.getD_append _ _ _ _ h

theorem getD_take_of_lt (l : List α) (n i : ℕ) (d : α) (h : i < n) :
    (l.take n).getD i d = l.getD i d := by
  rw [List.getD_eq_getElem?_getD, List.getD_eq_getElem?_getD, List.getElem?_take_of_lt h]

theorem mkSpawn_pos (ps : List Particle) (nh : List SamplePoint) (pk : ℕ → ℕ)
    (rp : ℕ → ℝ × ℝ) (h : pk ps.length < ps.length) :
    (mkSpawn ps nh pk rp).x = (ps.getD (pk ps.length) Particle.mk0).x ∧
    (mkSpawn ps nh pk rp).y = (ps.getD (pk ps.length) Particle.mk0).y := by
  simp only [mkSpawn, List.getElem?_eq_getElem h]
  rw [List.getD_eq_getElem _ _ h]
  exact ⟨rfl, rfl⟩

theorem growLoop_share (nh : List SamplePoint) (pk : ℕ → ℕ) (rp : ℕ → ℝ × ℝ)
    (k : ℕ) : ∀ ps : List Particle, 0 < ps.length →
    (∀ j, ps.length ≤ j → pk j < j) →
    ∀ i, ps.length ≤ i → i < ps.length + k →
    ∃ j, j < i ∧
      ((growLoop nh pk rp ps k).getD i Particle.mk0).x
        = ((growLoop nh pk rp ps k).getD j Particle.mk0).x ∧
      ((growLoop nh pk rp ps k).getD i Particle.mk0).y
        = ((growLoop nh pk rp ps k).getD j Particle.mk0).y := by
  induction k with
  | zero => intro ps _ _ i h1 h2; omega
  | succ k ih =>
    intro ps hps hpk i h1 h2
    rcases Nat.eq_or_lt_of_le h1 with heq | hlt
    · subst heq
      have hj := hpk _ le_rfl
      have hgi : (growLoop nh pk rp ps (k + 1)).getD ps.length Particle.mk0
          = mkSpawn ps nh pk rp := by
        rw [growLoop, growLoop_getD_of_lt nh pk rp k _ _ _
          (by simp only [List.length_append, List.length_singleton]; omega)]
        rw [List.getD_append_right _ _ _ _ le_rfl]
        simp
      have hgj : (growLoop nh pk rp ps (k + 1)).getD (pk ps.length) Particle.mk0
          = ps.getD (pk ps.length) Particle.mk0 := by
        rw [growLoop, growLoop_getD_of_lt nh pk rp k _ _ _
          (by simp only [List.length_append, List.length_singleton]; omega)]
        exact List.getD_append _ _ _ _ hj
      exact ⟨pk ps.length, hj,
        by rw [hgi, hgj]; exact (mkSpawn_pos ps nh pk rp hj).1,
        by rw [hgi, hgj]; exact (mkSpawn_pos ps nh pk rp hj).2⟩
    · rw [growLoop]
      exact ih (ps ++ [mkSpawn ps nh pk rp])
        (by simp only [List.length_append, List.length_singleton]; omega)
        (fun j hj => hpk j (by simp only [List.length_append, List.length_singleton] at hj; omega))
        i (by simp only [List.length_append, List.length_singleton]; omega)
        (by simp only [List.length_append, List.length_singleton]; omega)

/-- C10: every particle surviving a phrase transition (index below
`min(old, new)`) comes out thawed, whatever its previous frozen state. -/
theorem C10_transition_thaws (s : ParticleSystem) (newHomes : List SamplePoint)
    (pick : ℕ → ℕ) (randPos : ℕ → ℝ × ℝ) (i : ℕ)
    (hi : i < min s.particles.length newHomes.length) :
    (((s.transitionTo newHomes pick randPos).particles).getD i Particle.mk0).frozen
      = false := by
  have hin : i < s.particles.length := lt_of_lt_of_le hi (Nat.min_le_left _ _)
  have him : i < newHomes.length := lt_of_lt_of_le hi (Nat.min_le_right _ _)
  have hP : (s.transitionTo newHomes pick randPos).particles
      = List.take newHomes.length (growLoop newHomes pick randPos
          (remapHomes s.particles newHomes)
          (min newHomes.length s.targetCount - min s.particles.length newHomes.length)) :=
    rfl
  rw [hP, getD_take_of_lt _ _ _ _ him,
    growLoop_getD_of_lt _ _ _ _ _ _ _ (by rw [remapHomes_length]; exact hin),
    remapHomes_getD _ _ _ _ hin him]
  rfl

/-- Concrete one-particle pool used to witness the transition theorems. -/
def wSys : ParticleSystem :=
  { particles := [{ Particle.mk0 with x := 3, y := 4, frozen := true }],
    targetCount := 5, maxParticles := 5, homePositions := [⟨1, 1⟩],
    lastBBox := none,
    config := { particleCount := 5, repulsionForce := 1, friction := 1, ease := 1,
                mode := InteractionMode.repulse },
    mousePos := none, forcePoints := [] }

/-- C10 witness: the surviving particle of a concrete transition is thawed. -/
theorem C10_transition_thaws_witness :
    (((wSys.transitionTo [⟨5, 7⟩, ⟨6, 8⟩] (fun _ => 0) (fun _ => (0, 0))).particles).getD 0
        Particle.mk0).frozen = false :=
  C10_transition_thaws wSys [⟨5, 7⟩, ⟨6, 8⟩] (fun _ => 0) (fun _ => (0, 0)) 0
    (by simp [wSys])

/-- C8: phrase transition contract. With a nonempty old pool and the random
index draw always naming an existing pool entry (`pick j < j` at pool length
`j`): (1) each of the first `min(old, new)` particles keeps its position and
velocity and only takes the matching new home anchor; (2) growing
(`new > old` with `new ≤ targetCount`) brings the pool to exactly the new
anchor count and every spawned particle starts at the current position of some
earlier pool entry; (3) shrinking (`new < old`) truncates the pool to the new
anchor count. -/
theorem C8_transition_contract (s : ParticleSystem) (newHomes : List SamplePoint)
    (pick : ℕ → ℕ) (randPos : ℕ → ℝ × ℝ)
    (hn : 0 < s.particles.length)
    (hpick : ∀ j, s.particles.length ≤ j → pick j < j) :
    (∀ i, i < min s.particles.length newHomes.length →
      ((s.transitionTo newHomes pick randPos).particles.getD i Particle.mk0).x
          = (s.particles.getD i Particle.mk0).x ∧
      ((s.transitionTo newHomes pick randPos).particles.getD i Particle.mk0).y
          = (s.particles.getD i Particle.mk0).y ∧
      ((s.transitionTo newHomes pick randPos).particles.getD i Particle.mk0).vx
          = (s.particles.getD i Particle.mk0).vx ∧
      ((s.transitionTo newHomes pick randPos).particles.getD i Particle.mk0).vy
          = (s.particles.getD i Particle.mk0).vy ∧
      ((s.transitionTo newHomes pick randPos).particles.getD i Particle.mk0).homeX
          = ((newHomes.getD i ⟨0, 0⟩).homeX : ℝ) ∧
      ((s.transitionTo newHomes pick randPos).particles.getD i Particle.mk0).homeY
          = ((newHomes.getD i ⟨0, 0⟩).homeY : ℝ)) ∧
    (s.particles.length < newHomes.length → newHomes.length ≤ s.targetCount →
      (s.transitionTo newHomes pick randPos).particles.length = newHomes.length ∧
      ∀ i, s.particles.length ≤ i → i < newHomes.length →
        ∃ j, j < i ∧
          ((s.transitionTo newHomes pick randPos).particles.getD i Particle.mk0).x
            = ((s.transitionTo newHomes pick randPos).particles.getD j Particle.mk0).x ∧
          ((s.transitionTo newHomes pick randPos).particles.getD i Particle.mk0).y
            = ((s.transitionTo newHomes pick randPos).particles.getD j Particle.mk0).y) ∧
    (newHomes.length < s.particles.length →
      (s.transitionTo newHomes pick randPos).particles.length = newHomes.length) := by
  have hP : (s.transitionTo newHomes pick randPos).particles
      = List.take newHomes.length (growLoop newHomes pick randPos
          (remapHomes s.particles newHomes)
          (min newHomes.length s.targetCount - min s.particles.length newHomes.length)) :=
    rfl
  have hRlen : (remapHomes s.particles newHomes).length = s.particles.length :=
    remapHomes_length _ _
  have hGlen : (growLoop newHomes pick randPos (remapHomes s.particles newHomes)
      (min newHomes.length s.targetCount - min s.particles.length newHomes.length)).length
      = s.particles.length
        + (min newHomes.length s.targetCount - min s.particles.length newHomes.length) := by
    rw [growLoop_length, hRlen]
  refine ⟨?_, ?_, ?_⟩
  · intro i hi
    have hin : i < s.particles.length := lt_of_lt_of_le hi (Nat.min_le_left _ _)
    have him : i < newHomes.length := lt_of_lt_of_le hi (Nat.min_le_right _ _)
    rw [hP, getD_take_of_lt _ _ _ _ him,
      growLoop_getD_of_lt _ _ _ _ _ _ _ (by rw [hRlen]; exact hin),
      remapHomes_getD _ _ _ _ hin him]
    exact ⟨rfl, rfl, rfl, rfl, rfl, rfl⟩
  · intro hlt htc
    constructor
    · rw [hP, List.length_take, hGlen]
      omega
    · intro i hi1 hi2
      have hmm : min newHomes.length s.targetCount = newHomes.length := by omega
      have hmn : min s.particles.length newHomes.length = s.particles.length := by omega
      have hshare := growLoop_share newHomes pick randPos
        (min newHomes.length s.targetCount - min s.particles.length newHomes.length)
        (remapHomes s.particles newHomes) (by rw [hRlen]; exact hn)
        (fun j hj => hpick j (by rw [hRlen] at hj; exact hj))
        i (by rw [hRlen]; exact hi1) (by rw [hRlen, hmm, hmn]; omega)
      obtain ⟨j, hji, hx, hy⟩ := hshare
      refine ⟨j, hji, ?_, ?_⟩
      · rw [hP, getD_take_of_lt _ _ _ _ hi2, getD_take_of_lt _ _ _ _ (lt_trans hji hi2)]
        exact hx
      · rw [hP, getD_take_of_lt _ _ _ _ hi2, getD_take_of_lt _ _ _ _ (lt_trans hji hi2)]
        exact hy
  · intro hlt
    rw [hP, List.length_take, hGlen]
    omega

/-- C8 witness: growing a one-particle pool to two anchors keeps the pool at
the new anchor count. -/
theorem C8_transition_contract_witness :
    (wSys.transitionTo [⟨5, 7⟩, ⟨6, 8⟩] (fun _ => 0) (fun _ => (0, 0))).particles.length
      = 2 :=
  ((C8_transition_contract wSys [⟨5, 7⟩, ⟨6, 8⟩] (fun _ => 0) (fun _ => (0, 0))
      (by simp [wSys]) (fun j hj => show 0 < j by simp [wSys] at hj; omega)).2.1
    (by simp [wSys]) (by simp [wSys])).1

/-- C9: the per-frame update is insensitive to any elapsed time beyond the
0.05 s cap — `updateAll dt` always behaves as `updateAll (min dt 0.05)`, so
every `Particle.update` call receives at most 0.05 s however long the driver
stalled. -/
theorem C9_updateAll_dt_capped (s : ParticleSystem) (dt motionIntensity : ℝ)
    (canvasWidth canvasHeight : ℝ) (mask? : Option SegMask) :
    s.updateAll dt mask? motionIntensity canvasWidth canvasHeight
      = s.updateAll (min dt 0.05) mask? motionIntensity canvasWidth canvasHeight := by
  unfold ParticleSystem.updateAll
  rw [min_assoc, min_self]

/-- One LOD directive applied to the pool. -/
inductive LodOp
  | reduce
  | restore

/-- Fold of a directive sequence over the pool. -/
def applyLodOps (jit : ℕ → ℝ × ℝ) : ParticleSystem → List LodOp → ParticleSystem
  | s, [] => s
  | s, LodOp.reduce :: ops => applyLodOps jit s.reduceLOD ops
  | s, LodOp.restore :: ops => applyLodOps jit (s.restoreLOD jit) ops

/-- Pool-size invariant of the claim, with the reduce floor (3000) as the
lower bound of the LOD interval. -/
def lodInvariant (s : ParticleSystem) : Prop :=
  s.particles.length ≤ s.targetCount ∧ 3000 ≤ s.targetCount ∧
  s.targetCount ≤ s.maxParticles

/-- Pool whose configured ceiling (2000) sits below the absolute reduce floor
(3000): the constructor state itself, before any particles are created. -/
def cexSystem : ParticleSystem :=
  ParticleSystem.mkNew
    { particleCount := 2000, repulsionForce := 1, friction := 1, ease := 1,
      mode := InteractionMode.repulse }

/-- C5 counterexample: from the legal constructor state with
`targetCount = maxParticles = 2000`, one `reduceLOD` call raises `targetCount`
to the absolute floor 3000, leaving the claimed invariant
`targetCount ≤ maxParticles` false — the floor is not clamped to the ceiling,
so for ceilings below 3000 (or below the claimed floor in the relative-floor
variant) `targetCount` escapes `[floor, maxParticles]`. -/
theorem C5_counterexample :
    cexSystem.particles.length ≤ cexSystem.targetCount ∧
    cexSystem.targetCount ≤ cexSystem.maxParticles ∧
    cexSystem.reduceLOD.targetCount = 3000 ∧
    ¬(cexSystem.reduceLOD.targetCount ≤ cexSystem.reduceLOD.maxParticles) := by
  refine ⟨by decide, by decide, rfl, by decide⟩

theorem reduceLOD_inv (s : ParticleSystem) (h : lodInvariant s) :
    lodInvariant s.reduceLOD ∧ s.reduceLOD.maxParticles = s.maxParticles ∧
    s.reduceLOD.homePositions = s.homePositions := by
  obtain ⟨h1, h2, h3⟩ := h
  have hmax : 3000 ≤ s.maxParticles := le_trans h2 h3
  refine ⟨⟨?_, ?_, ?_⟩, rfl, rfl⟩
  · show (s.particles.take (max 3000 (9 * s.targetCount / 10))).length
        ≤ max 3000 (9 * s.targetCount / 10)
    rw [List.length_take]
    omega
  · show 3000 ≤ max 3000 (9 * s.targetCount / 10)
    omega
  · show max 3000 (9 * s.targetCount / 10) ≤ s.maxParticles
    omega

theorem restoreLOD_inv (s : ParticleSystem) (jit : ℕ → ℝ × ℝ) (h : lodInvariant s) :
    lodInvariant (s.restoreLOD jit) ∧ (s.restoreLOD jit).maxParticles = s.maxParticles ∧
    (s.restoreLOD jit).homePositions = s.homePositions := by
  obtain ⟨h1, h2, h3⟩ := h
  unfold ParticleSystem.restoreLOD
  split
  · exact ⟨⟨h1, h2, h3⟩, rfl, rfl⟩
  · rename_i hlt
    refine ⟨⟨?_, ?_, ?_⟩, rfl, rfl⟩
    · show (s.particles ++ _).length ≤ min s.maxParticles (133 * s.targetCount / 100)
      rw [List.length_append, List.length_mapIdx, List.length_take, List.length_drop]
      omega
    · show 3000 ≤ min s.maxParticles (133 * s.targetCount / 100)
      omega
    · show min s.maxParticles (133 * s.targetCount / 100) ≤ s.maxParticles
      omega

theorem applyLodOps_inv (ops : List LodOp) (jit : ℕ → ℝ × ℝ) :
    ∀ s : ParticleSystem, lodInvariant s →
    lodInvariant (applyLodOps jit s ops) ∧
    (applyLodOps jit s ops).maxParticles = s.maxParticles := by
  induction ops with
  | nil => exact fun s h => ⟨h, rfl⟩
  | cons op ops ih =>
    intro s h
    cases op with
    | reduce =>
      have hstep := reduceLOD_inv s h
      have := ih s.reduceLOD hstep.1
      refine ⟨this.1, ?_⟩
      show (applyLodOps jit s.reduceLOD ops).maxParticles = s.maxParticles
      rw [this.2, hstep.2.1]
    | restore =>
      have hstep := restoreLOD_inv s jit h
      have := ih (s.restoreLOD jit) hstep.1
      refine ⟨this.1, ?_⟩
      show (applyLodOps jit (s.restoreLOD jit) ops).maxParticles = s.maxParticles
      rw [this.2, hstep.2.1]

/-- C5 (amended): provided the configured ceiling admits the reduce floor
(`3000 ≤ maxParticles`) and the pool starts inside the LOD interval
(`particles ≤ targetCount`, `3000 ≤ targetCount ≤ maxParticles`, as the
constructor guarantees for such ceilings): any sequence of
`reduceLOD`/`restoreLOD` calls keeps `particles.length ≤ targetCount` and
keeps `targetCount` inside `[3000, maxParticles]` with the ceiling unchanged;
and `init`, `transitionTo` and `updateAll` each preserve
`particles.length ≤ targetCount` (they never touch `targetCount` or the
ceiling). For ceilings below the floor the claim fails (see the
counterexample). -/
theorem C5_amended (s : ParticleSystem) (ops : List LodOp) (jit : ℕ → ℝ × ℝ)
    (newHomes : List SamplePoint) (pick : ℕ → ℕ) (randPos : ℕ → ℝ × ℝ)
    (dt motionIntensity canvasWidth canvasHeight : ℝ) (mask? : Option SegMask)
    (hinv : lodInvariant s) :
    lodInvariant (applyLodOps jit s ops) ∧
    (applyLodOps jit s ops).maxParticles = s.maxParticles ∧
    (s.reInit newHomes jit).particles.length ≤ (s.reInit newHomes jit).targetCount ∧
    (s.reInit newHomes jit).targetCount = s.targetCount ∧
    (s.transitionTo newHomes pick randPos).particles.length
        ≤ (s.transitionTo newHomes pick randPos).targetCount ∧
    (s.transitionTo newHomes pick randPos).targetCount = s.targetCount ∧
    (s.updateAll dt mask? motionIntensity canvasWidth canvasHeight).particles.length
        ≤ (s.updateAll dt mask? motionIntensity canvasWidth canvasHeight).targetCount ∧
    (s.updateAll dt mask? motionIntensity canvasWidth canvasHeight).targetCount
        = s.targetCount := by
  have hops := applyLodOps_inv ops jit s hinv
  have hlen := hinv.1
  refine ⟨hops.1, hops.2, ?_, rfl, ?_, rfl, ?_, rfl⟩
  · show (rebuildParticles newHomes s.targetCount jit).length ≤ s.targetCount
    unfold rebuildParticles
    rw [List.length_map, List.length_range]
    omega
  · show (List.take newHomes.length (growLoop newHomes pick randPos
        (remapHomes s.particles newHomes)
        (min newHomes.length s.targetCount - min s.particles.length newHomes.length))).length
      ≤ s.targetCount
    rw [List.length_take, growLoop_length, remapHomes_length]
    omega
  · show (s.particles.map _).length ≤ s.targetCount
    rw [List.length_map]
    exact hlen

/-- C5 amended witness: from the constructor state at ceiling 4000, the
sequence reduce·reduce·restore keeps the pool invariant and the target inside
`[3000, 4000]`. -/
theorem C5_amended_witness :
    lodInvariant (applyLodOps (fun _ => (0, 0))
      (ParticleSystem.mkNew
        { particleCount := 4000, repulsionForce := 1, friction := 1, ease := 1,
          mode := InteractionMode.repulse })
      [LodOp.reduce, LodOp.reduce, LodOp.restore]) :=
  (C5_amended
    (ParticleSystem.mkNew
      { particleCount := 4000, repulsionForce := 1, friction := 1, ease := 1,
        mode := InteractionMode.repulse })
    [LodOp.reduce, LodOp.reduce, LodOp.restore] (fun _ => (0, 0))
    [] (fun _ => 0) (fun _ => (0, 0)) 0 0 0 0 none
    ⟨by decide, by decide, by decide⟩).1

end Kinetype
